import Mathlib

/-!
Verification of gitlab-pivot.

A shallow embedding of `gitlab-pivot.c`, the setuid helper that hands the
invoking user over to gitlab-shell, together with the properties of `main`.

Modelling conventions.

* A C string is the list of its `char`s before the terminating NUL, so a
  character of a string is a byte in the range 1..255 (`CChar`).
* `size_t` arithmetic is done on `Nat` modulo `2 ^ size_bits`.
* The operating system is a record `World`: the real and effective user id,
  the working directory, the environment, the password database, and the
  answers of the calls that can fail for lack of a resource (`malloc`,
  `setenv`, `execl`).
* `main` is a function from the build-time path, the world and `argv` to a
  `Result`: the sequence of library calls it made, the environment it left
  and the way it ended.  A failed `setenv` returns -1 and leaves the
  environment as it was; `main` discards that result.
-/

namespace GitlabPivot

/-- A `char` of a C string: a byte other than the terminator. -/
abbrev CChar := { b : Nat // 0 < b ∧ b < 256 }

/-- A C string, without its terminator. -/
abbrev CStr := List CChar

/-- The C string denoted by a string literal of the source. -/
def cstr (s : String) : CStr :=
  s.toList.filterMap fun c =>
    if h : 0 < c.toNat ∧ c.toNat < 256 then some ⟨c.toNat, h⟩ else none

/-- The process environment: `NAME=value` entries in the order of `environ`. -/
abbrev Env := List (CStr × CStr)

/-- The part of `struct passwd` that `main` reads; `pw_name` is a pointer and may be NULL. -/
structure Passwd where
  pw_name : Option CStr

/-- The state of the operating system when `main` is entered. -/
structure World where
  /-- Width of `size_t` in bits. -/
  size_bits : Nat
  /-- Real user id of the process. -/
  uid : Nat
  /-- Effective user id of the process (the owner of the setuid binary). -/
  euid : Nat
  /-- Current working directory. -/
  cwd : CStr
  /-- Environment at entry. -/
  environ : Env
  /-- Password database: the entry of a user id, if there is one. -/
  passwd : Nat → Option Passwd
  /-- Whether an allocation of the given number of bytes succeeds. -/
  malloc_ok : Nat → Bool
  /-- Whether `setenv` finds the memory to store the given name and value. -/
  setenv_ok : CStr → CStr → Bool
  /-- Whether the file at the given path can be executed. -/
  can_exec : CStr → Bool

/-- Library calls made by `main`, in program order. -/
inductive Event where
  | fputs_stderr (s : CStr)
  | getuid
  | getpwuid (uid : Nat)
  | malloc (size : Nat)
  | sprintf (capacity : Nat) (written : CStr)
  | setenv (name value : CStr) (overwrite : Int) (result : Int)
  | execl (path : CStr) (args : List CStr) (envp : Env)
  deriving DecidableEq

/-- How the process ends. -/
inductive Outcome where
  /-- Function `main` returned the given `int`. -/
  | returned (status : Int)
  /-- The process image was replaced by the program at `path`. -/
  | replaced (path : CStr) (args : List CStr) (envp : Env)
  deriving DecidableEq

/-- What an invocation did. -/
structure Result where
  trace : List Event
  environ : Env
  outcome : Outcome
  deriving DecidableEq

/-- The exit status a parent observes for a returned `int`: its low eight bits. -/
def exit_status (r : Int) : Int := r % 256

/-- The function `strlen`. -/
def strlen (s : CStr) : Nat := s.length

/-- The function `strcmp`: the difference of the first pair of differing bytes, where a
string that has ended contributes its terminator 0. -/
def strcmp : CStr → CStr → Int
  | [], [] => 0
  | [], b :: _ => 0 - (b.val : Int)
  | a :: _, [] => (a.val : Int)
  | a :: s, b :: t => if a.val = b.val then strcmp s t else (a.val : Int) - (b.val : Int)

/-- The function `getenv`: the value of the first entry with the given name. -/
def getenv : Env → CStr → Option CStr
  | [], _ => none
  | (k, v) :: rest, name => if k = name then some v else getenv rest name

/-- The environment after a successful `setenv`: the first entry with the given name gets
the new value when `overwrite` is non-zero and is kept otherwise; without such an entry one
is appended. -/
def add_to_environ : Env → CStr → CStr → Int → Env
  | [], name, value, _ => [(name, value)]
  | (k, v) :: rest, name, value, overwrite =>
    if k = name then
      if overwrite ≠ 0 then (k, value) :: rest else (k, v) :: rest
    else (k, v) :: add_to_environ rest name value overwrite

/-- The function `setenv`: its result and the environment it leaves.  An empty name or a
name with `=` in it is refused, and so is a call for which memory is lacking; both return
-1 and change nothing.  Otherwise the call returns 0 and the variable is set. -/
def setenv (os : World) (env : Env) (name value : CStr) (overwrite : Int) : Int × Env :=
  if name = [] ∨ 61 ∈ name.map Subtype.val then (-1, env)
  else if os.setenv_ok name value = false then (-1, env)
  else (0, add_to_environ env name value overwrite)

/-- The function `sprintf` restricted to the `%s` conversion: the characters produced
(the terminator that follows them is not part of the list). -/
def format : CStr → List CStr → CStr
  | [], _ => []
  | [c], _ => [c]
  | c :: d :: rest, args =>
    if c.val = 37 ∧ d.val = 115 then
      match args with
      | [] => format rest []
      | a :: more => a ++ format rest more
    else c :: format (d :: rest) args

/-- Number of bytes `sprintf` stores for the given output: its characters and the terminator. -/
def bytes_written (out : CStr) : Nat := out.length + 1

/-- The argument of `malloc` in `main`: `(strlen(pw_name) + 10) * sizeof(char)` in `size_t`. -/
def alloc_size (size_bits : Nat) (pw_name : CStr) : Nat :=
  ((strlen pw_name % 2 ^ size_bits + 10) % 2 ^ size_bits * 1) % 2 ^ size_bits

/-- The contents of `name_arg` after `sprintf(name_arg, "username-%s", pw_name)`. -/
def name_arg (pw_name : CStr) : CStr := format (cstr "username-%s") [pw_name]

/-- The usage message. -/
def usage_msg : CStr := cstr "Usage: gitlab-pivot -c COMMAND\n"

/-- The diagnostic of a failed lookup. -/
def lookup_msg : CStr := cstr "Could not determine the username of the real user\n"

/-- The diagnostic of a failed allocation. -/
def oom_msg : CStr := cstr "Out of memory\n"

/-- The name of the variable that carries the command. -/
def ssh_original_command : CStr := cstr "SSH_ORIGINAL_COMMAND"

/-- The function `execl`: the image is replaced when the file can be executed, otherwise
the call returns -1. -/
def execl (os : World) (path : CStr) (args : List CStr) (envp : Env) : Outcome :=
  if os.can_exec path then Outcome.replaced path args envp else Outcome.returned (-1)

/-- The function `main`.  `GITLAB_SHELL` is the path given at build time and `argv` holds
the `argc` arguments; `argv[1]` is read only when `argc` is 3. -/
def main (GITLAB_SHELL : CStr) (os : World) (argv : List CStr) : Result :=
  if (argv.length : Int) ≠ 3 ∨ strcmp (argv.getD 1 []) (cstr "-c") ≠ 0 then
    { trace := [Event.fputs_stderr usage_msg]
      environ := os.environ
      outcome := Outcome.returned 1 }
  else
    let lookup := [Event.getuid, Event.getpwuid os.uid]
    match (os.passwd os.uid).bind Passwd.pw_name with
    | none =>
      { trace := lookup ++ [Event.fputs_stderr lookup_msg]
        environ := os.environ
        outcome := Outcome.returned 1 }
    | some pw_name =>
      let size := alloc_size os.size_bits pw_name
      if os.malloc_ok size = false then
        { trace := lookup ++ [Event.malloc size, Event.fputs_stderr oom_msg]
          environ := os.environ
          outcome := Outcome.returned 1 }
      else
        let token := name_arg pw_name
        let cmd := argv.getD 2 []
        let set := setenv os os.environ ssh_original_command cmd 1
        let env := set.2
        let args := [GITLAB_SHELL, token]
        { trace := lookup ++ [Event.malloc size, Event.sprintf size token,
                              Event.setenv ssh_original_command cmd 1 set.1,
                              Event.execl GITLAB_SHELL args env]
          environ := env
          outcome := execl os GITLAB_SHELL args env }

/-- Everything written to the error stream, in order. -/
def stderr_of : List Event → CStr
  | [] => []
  | Event.fputs_stderr s :: rest => s ++ stderr_of rest
  | _ :: rest => stderr_of rest

/-- The calls of `execl` in a trace: path, argument vector and environment of each. -/
def exec_attempts : List Event → List (CStr × List CStr × Env)
  | [] => []
  | Event.execl p a e :: rest => (p, a, e) :: exec_attempts rest
  | _ :: rest => exec_attempts rest

/-- The user ids looked up in the password database. -/
def lookups : List Event → List Nat
  | [] => []
  | Event.getpwuid u :: rest => u :: lookups rest
  | _ :: rest => lookups rest

/-- The calls of `setenv` in a trace: name, value and overwrite flag of each. -/
def env_mutations : List Event → List (CStr × CStr × Int)
  | [] => []
  | Event.setenv n v o _ :: rest => (n, v, o) :: env_mutations rest
  | _ :: rest => env_mutations rest

/-- The calls of `sprintf` in a trace: the size of the destination buffer and the output. -/
def sprintf_calls : List Event → List (Nat × CStr)
  | [] => []
  | Event.sprintf c out :: rest => (c, out) :: sprintf_calls rest
  | _ :: rest => sprintf_calls rest

/-- The username the password database gives for the real user id, if any. -/
def resolved (os : World) : Option CStr := (os.passwd os.uid).bind Passwd.pw_name

/-- A world for the examples: real user 1000 is `name`, every allocation and every
`setenv` succeeds and every file can be executed. -/
def sample_world (name : CStr) (env : Env) : World :=
  { size_bits := 64
    uid := 1000
    euid := 998
    cwd := cstr "/home"
    environ := env
    passwd := fun u => if u = 1000 then some { pw_name := some name } else none
    malloc_ok := fun _ => true
    setenv_ok := fun _ _ => true
    can_exec := fun _ => true }

/-- A world in which the real user has an entry whose `pw_name` is NULL. -/
def null_name_world : World :=
  { sample_world [] [] with passwd := fun _ => some { pw_name := none } }

/-- A world in which the real user has no entry in the password database. -/
def no_entry_world : World :=
  { sample_world [] [] with passwd := fun _ => none }

/-- A world in which `GITLAB_SHELL` cannot be executed. -/
def no_shell_world : World :=
  { sample_world (cstr "alice") [] with can_exec := fun _ => false }

/-- The call of `execl` expected for `alice` running `ls` from an empty environment. -/
def sample_exec : CStr × List CStr × Env :=
  (cstr "/usr/bin/gitlab-shell", [cstr "/usr/bin/gitlab-shell", cstr "username-alice"],
    [(cstr "SSH_ORIGINAL_COMMAND", cstr "ls")])

/-- The call of `execl` expected for `alice` running `/bin/bash` in `other_world`. -/
def other_exec : CStr × List CStr × Env :=
  (cstr "/usr/bin/gitlab-shell", [cstr "/usr/bin/gitlab-shell", cstr "username-alice"],
    [(cstr "PATH", cstr "/tmp/evil"), (cstr "GITLAB_SHELL", cstr "/bin/bash"),
     (cstr "SSH_ORIGINAL_COMMAND", cstr "/bin/bash")])

/-- A world for `alice` whose environment already holds a value for the command variable. -/
def stale_world : World :=
  sample_world (cstr "alice")
    [(cstr "PATH", cstr "/bin"), (cstr "SSH_ORIGINAL_COMMAND", cstr "rm -rf /"),
     (cstr "HOME", cstr "/home/alice")]

/-- The call of `execl` expected for `alice` running `ls -la` in `stale_world`. -/
def stale_exec : CStr × List CStr × Env :=
  (cstr "/usr/bin/gitlab-shell", [cstr "/usr/bin/gitlab-shell", cstr "username-alice"],
    [(cstr "PATH", cstr "/bin"), (cstr "SSH_ORIGINAL_COMMAND", cstr "ls -la"),
     (cstr "HOME", cstr "/home/alice")])

/-- A world for `alice` that is short of memory: the 15 bytes of the token can be
allocated, nothing else can, and `setenv` fails. -/
def tight_world : World :=
  { sample_world (cstr "alice") [] with
    malloc_ok := fun n => decide (n = 15)
    setenv_ok := fun _ _ => false }

/-- The world `stale_world` short of memory in the same way. -/
def tight_stale_world : World :=
  { stale_world with
    malloc_ok := fun n => decide (n = 15)
    setenv_ok := fun _ _ => false }

/-- The call of `execl` that `main` makes for `alice` running `ls -la` in
`tight_stale_world`: the environment is the initial one. -/
def tight_stale_exec : CStr × List CStr × Env :=
  (cstr "/usr/bin/gitlab-shell", [cstr "/usr/bin/gitlab-shell", cstr "username-alice"],
    [(cstr "PATH", cstr "/bin"), (cstr "SSH_ORIGINAL_COMMAND", cstr "rm -rf /"),
     (cstr "HOME", cstr "/home/alice")])

/-- A second world for `alice`: other effective id, working directory and environment. -/
def other_world : World :=
  { sample_world (cstr "alice") [(cstr "PATH", cstr "/tmp/evil"), (cstr "GITLAB_SHELL", cstr "/bin/bash")] with
    euid := 0
    cwd := cstr "/tmp" }


theorem name_arg_eq (n : CStr) : name_arg n = cstr "username-" ++ n := by
  have h : name_arg n = cstr "username-" ++ (n ++ []) := rfl
  rw [h, List.append_nil]

theorem strcmp_eq_zero_iff (s t : CStr) : strcmp s t = 0 ↔ s = t := by
  induction s generalizing t with
  | nil =>
    cases t with
    | nil => simp [strcmp]
    | cons b t =>
      have := b.property.1
      simp [strcmp]; omega
  | cons a s ih =>
    cases t with
    | nil =>
      have := a.property.1
      simp [strcmp]; omega
    | cons b t =>
      simp only [strcmp]
      split
      · rename_i h
        rw [ih]
        have : a = b := Subtype.ext h
        simp [this]
      · rename_i h
        have : a ≠ b := fun e => h (by rw [e])
        simp [this]; omega

theorem getenv_add_same (env : Env) (name v : CStr) (o : Int) (h : o ≠ 0) :
    getenv (add_to_environ env name v o) name = some v := by
  induction env with
  | nil => simp [add_to_environ, getenv]
  | cons p rest ih =>
    obtain ⟨k, w⟩ := p
    by_cases hk : k = name
    · simp [add_to_environ, getenv, hk, h]
    · simp [add_to_environ, getenv, hk, ih]

theorem getenv_add_other (env : Env) (name v k : CStr) (o : Int) (h : k ≠ name) :
    getenv (add_to_environ env name v o) k = getenv env k := by
  induction env with
  | nil => simp [add_to_environ, getenv, h.symm]
  | cons p rest ih =>
    obtain ⟨k2, w⟩ := p
    by_cases hk : k2 = name
    · by_cases ho : o = 0
      · simp [add_to_environ, getenv, hk, ho]
      · have : ¬ name = k := fun e => h e.symm
        simp [add_to_environ, getenv, hk, ho, this]
    · simp [add_to_environ, getenv, hk, ih]

theorem filter_add (env : Env) (name v : CStr) (o : Int) :
    (add_to_environ env name v o).filter (fun p => decide (p.1 ≠ name)) =
      env.filter (fun p => decide (p.1 ≠ name)) := by
  induction env with
  | nil => simp [add_to_environ]
  | cons p rest ih =>
    obtain ⟨k2, w⟩ := p
    by_cases hk : k2 = name
    · by_cases ho : o = 0
      · simp [add_to_environ, hk, ho]
      · simp [add_to_environ, hk, ho]
    · simpa [add_to_environ, hk] using ih


theorem setenv_command_ok (os : World) (env : Env) (cmd : CStr)
    (h : os.setenv_ok ssh_original_command cmd = true) :
    setenv os env ssh_original_command cmd 1 =
      (0, add_to_environ env ssh_original_command cmd 1) := by
  have hn : ¬ (ssh_original_command = [] ∨ 61 ∈ ssh_original_command.map Subtype.val) := by
    decide
  unfold setenv
  rw [if_neg hn]
  simp [h]

theorem setenv_command_failed (os : World) (env : Env) (cmd : CStr)
    (h : os.setenv_ok ssh_original_command cmd = false) :
    setenv os env ssh_original_command cmd 1 = (-1, env) := by
  unfold setenv
  simp [h]

theorem guard_iff (argv : List CStr) :
    ((argv.length : Int) ≠ 3 ∨ strcmp (argv.getD 1 []) (cstr "-c") ≠ 0) ↔
      (argv.length ≠ 3 ∨ argv[1]? ≠ some (cstr "-c")) := by
  rw [Ne, Ne, strcmp_eq_zero_iff]
  by_cases hl : argv.length = 3
  · match argv, hl with
    | [a, b, c], _ => simp
  · have hi : ¬ (argv.length : Int) = 3 := by exact_mod_cast hl
    simp [hl, hi]

theorem shape_of_not_bad (argv : List CStr)
    (h : ¬ (argv.length ≠ 3 ∨ argv[1]? ≠ some (cstr "-c"))) :
    ∃ prog cmd, argv = [prog, cstr "-c", cmd] := by
  have hl : argv.length = 3 := by
    by_contra hc
    exact h (Or.inl hc)
  match argv, hl, h with
  | [a, b, c], _, h =>
    refine ⟨a, c, ?_⟩
    have hb : b = cstr "-c" := by
      by_contra hc
      exact h (Or.inr (by simpa using hc))
    rw [hb]

theorem main_bad_shape (sh : CStr) (os : World) (argv : List CStr)
    (h : argv.length ≠ 3 ∨ argv[1]? ≠ some (cstr "-c")) :
    main sh os argv =
      { trace := [Event.fputs_stderr usage_msg]
        environ := os.environ
        outcome := Outcome.returned 1 } := by
  unfold main
  rw [if_pos ((guard_iff argv).2 h)]

theorem good_guard (prog cmd : CStr) :
    ¬ ((([prog, cstr "-c", cmd] : List CStr).length : Int) ≠ 3 ∨
        strcmp (([prog, cstr "-c", cmd] : List CStr).getD 1 []) (cstr "-c") ≠ 0) := by
  rw [guard_iff]
  simp

theorem main_no_user (sh : CStr) (os : World) (prog cmd : CStr) (h : resolved os = none) :
    main sh os [prog, cstr "-c", cmd] =
      { trace := [Event.getuid, Event.getpwuid os.uid, Event.fputs_stderr lookup_msg]
        environ := os.environ
        outcome := Outcome.returned 1 } := by
  unfold main
  rw [if_neg (good_guard prog cmd)]
  unfold resolved at h
  simp [h]

theorem main_no_memory (sh : CStr) (os : World) (prog cmd n : CStr) (h : resolved os = some n)
    (hm : os.malloc_ok (alloc_size os.size_bits n) = false) :
    main sh os [prog, cstr "-c", cmd] =
      { trace := [Event.getuid, Event.getpwuid os.uid,
                  Event.malloc (alloc_size os.size_bits n), Event.fputs_stderr oom_msg]
        environ := os.environ
        outcome := Outcome.returned 1 } := by
  unfold main
  rw [if_neg (good_guard prog cmd)]
  unfold resolved at h
  simp [h, hm]

theorem main_exec (sh : CStr) (os : World) (prog cmd n : CStr) (h : resolved os = some n)
    (hm : os.malloc_ok (alloc_size os.size_bits n) = true) :
    main sh os [prog, cstr "-c", cmd] =
      { trace := [Event.getuid, Event.getpwuid os.uid,
                  Event.malloc (alloc_size os.size_bits n),
                  Event.sprintf (alloc_size os.size_bits n) (name_arg n),
                  Event.setenv ssh_original_command cmd 1
                    (setenv os os.environ ssh_original_command cmd 1).1,
                  Event.execl sh [sh, name_arg n] (setenv os os.environ ssh_original_command cmd 1).2]
        environ := (setenv os os.environ ssh_original_command cmd 1).2
        outcome := execl os sh [sh, name_arg n] (setenv os os.environ ssh_original_command cmd 1).2 } := by
  unfold main
  rw [if_neg (good_guard prog cmd)]
  unfold resolved at h
  simp [h, hm]


theorem main_cases (sh : CStr) (os : World) (argv : List CStr) :
    ((argv.length ≠ 3 ∨ argv[1]? ≠ some (cstr "-c")) ∧
      main sh os argv =
        { trace := [Event.fputs_stderr usage_msg]
          environ := os.environ
          outcome := Outcome.returned 1 }) ∨
    ∃ prog cmd, argv = [prog, cstr "-c", cmd] ∧
      ((resolved os = none ∧
        main sh os argv =
          { trace := [Event.getuid, Event.getpwuid os.uid, Event.fputs_stderr lookup_msg]
            environ := os.environ
            outcome := Outcome.returned 1 }) ∨
       ∃ n, resolved os = some n ∧
        ((os.malloc_ok (alloc_size os.size_bits n) = false ∧
          main sh os argv =
            { trace := [Event.getuid, Event.getpwuid os.uid,
                        Event.malloc (alloc_size os.size_bits n), Event.fputs_stderr oom_msg]
              environ := os.environ
              outcome := Outcome.returned 1 }) ∨
         (os.malloc_ok (alloc_size os.size_bits n) = true ∧
          main sh os argv =
            { trace := [Event.getuid, Event.getpwuid os.uid,
                        Event.malloc (alloc_size os.size_bits n),
                        Event.sprintf (alloc_size os.size_bits n) (name_arg n),
                        Event.setenv ssh_original_command cmd 1
                    (setenv os os.environ ssh_original_command cmd 1).1,
                        Event.execl sh [sh, name_arg n]
                          (setenv os os.environ ssh_original_command cmd 1).2]
              environ := (setenv os os.environ ssh_original_command cmd 1).2
              outcome := execl os sh [sh, name_arg n]
                (setenv os os.environ ssh_original_command cmd 1).2 }))) := by
  by_cases hb : argv.length ≠ 3 ∨ argv[1]? ≠ some (cstr "-c")
  · exact Or.inl ⟨hb, main_bad_shape sh os argv hb⟩
  · obtain ⟨prog, cmd, rfl⟩ := shape_of_not_bad argv hb
    refine Or.inr ⟨prog, cmd, rfl, ?_⟩
    cases hr : resolved os with
    | none => exact Or.inl ⟨rfl, main_no_user sh os prog cmd hr⟩
    | some n =>
      refine Or.inr ⟨n, rfl, ?_⟩
      cases hm : os.malloc_ok (alloc_size os.size_bits n) with
      | false => exact Or.inl ⟨rfl, main_no_memory sh os prog cmd n hr hm⟩
      | true => exact Or.inr ⟨rfl, main_exec sh os prog cmd n hr hm⟩

theorem exec_attempts_main (sh : CStr) (os : World) (argv : List CStr)
    (e : CStr × List CStr × Env) (he : e ∈ exec_attempts (main sh os argv).trace) :
    ∃ prog cmd n, argv = [prog, cstr "-c", cmd] ∧ resolved os = some n ∧
      os.malloc_ok (alloc_size os.size_bits n) = true ∧
      e = (sh, [sh, name_arg n], (setenv os os.environ ssh_original_command cmd 1).2) := by
  rcases main_cases sh os argv with ⟨_, hm⟩ | ⟨prog, cmd, ha, h⟩
  · rw [hm] at he
    simp [exec_attempts] at he
  · rcases h with ⟨_, hm⟩ | ⟨n, hn, ⟨_, hm⟩ | ⟨hok, hm⟩⟩
    · rw [hm] at he
      simp [exec_attempts] at he
    · rw [hm] at he
      simp [exec_attempts] at he
    · rw [hm] at he
      simp only [exec_attempts, List.mem_singleton] at he
      exact ⟨prog, cmd, n, ha, hn, hok, he⟩

/-- Claim C1: with arguments `[prog, "-c", cmd]`, a real user id that resolves to `n` and a
successful allocation, `main` should call `execl` with `SSH_ORIGINAL_COMMAND` holding `cmd`.
It does not when `setenv` fails: in `tight_world`, with the variable unset at entry, user
`alice` running `ls -la` has the token allocated, `setenv` returns -1, nothing is written to
the error stream, and `execl` is called on `GITLAB_SHELL` with `[GITLAB_SHELL,
"username-alice"]` and an environment in which the variable is still unset. -/
theorem failed_setenv_drops_command :
    resolved tight_world = some (cstr "alice") ∧
      tight_world.malloc_ok (alloc_size tight_world.size_bits (cstr "alice")) = true ∧
      (main (cstr "/usr/bin/gitlab-shell") tight_world
          [cstr "gitlab-pivot", cstr "-c", cstr "ls -la"]).trace =
        [Event.getuid, Event.getpwuid 1000, Event.malloc 15,
         Event.sprintf 15 (cstr "username-alice"),
         Event.setenv (cstr "SSH_ORIGINAL_COMMAND") (cstr "ls -la") 1 (-1),
         Event.execl (cstr "/usr/bin/gitlab-shell")
           [cstr "/usr/bin/gitlab-shell", cstr "username-alice"] []] ∧
      getenv (main (cstr "/usr/bin/gitlab-shell") tight_world
          [cstr "gitlab-pivot", cstr "-c", cstr "ls -la"]).environ
          (cstr "SSH_ORIGINAL_COMMAND") = none ∧
      (main (cstr "/usr/bin/gitlab-shell") tight_world
          [cstr "gitlab-pivot", cstr "-c", cstr "ls -la"]).outcome =
        Outcome.replaced (cstr "/usr/bin/gitlab-shell")
          [cstr "/usr/bin/gitlab-shell", cstr "username-alice"] [] :=
  ⟨rfl, rfl, rfl, rfl, rfl⟩

/-- When `setenv` succeeds the command is forwarded: with arguments `[prog, "-c", cmd]`, a
real user id that resolves to `n` and a successful allocation, `main` calls `execl` exactly
once, on the path `GITLAB_SHELL`, with the argument vector `[GITLAB_SHELL, "username-" ++ n]`
and with an environment in which `SSH_ORIGINAL_COMMAND` is `cmd`; when the call succeeds the
process is replaced accordingly. -/
theorem main_forwards_command (sh : CStr) (os : World) (prog cmd n : CStr)
    (hn : resolved os = some n) (hm : os.malloc_ok (alloc_size os.size_bits n) = true)
    (hs : os.setenv_ok ssh_original_command cmd = true) :
    exec_attempts (main sh os [prog, cstr "-c", cmd]).trace =
        [(sh, [sh, cstr "username-" ++ n], (main sh os [prog, cstr "-c", cmd]).environ)] ∧
      getenv (main sh os [prog, cstr "-c", cmd]).environ ssh_original_command = some cmd ∧
      (os.can_exec sh = true →
        (main sh os [prog, cstr "-c", cmd]).outcome =
          Outcome.replaced sh [sh, cstr "username-" ++ n]
            (main sh os [prog, cstr "-c", cmd]).environ) := by
  rw [main_exec sh os prog cmd n hn hm, name_arg_eq, setenv_command_ok os os.environ cmd hs]
  refine ⟨by simp [exec_attempts], ?_, ?_⟩
  · exact getenv_add_same os.environ ssh_original_command cmd 1 (by decide)
  · intro hx
    simp [execl, hx]

/-- An instance of `main_forwards_command`: user `alice` running `ls -la`. -/
theorem main_forwards_command_witness :
    resolved (sample_world (cstr "alice") []) = some (cstr "alice") ∧
      exec_attempts (main (cstr "/usr/bin/gitlab-shell") (sample_world (cstr "alice") [])
          [cstr "gitlab-pivot", cstr "-c", cstr "ls -la"]).trace =
        [(cstr "/usr/bin/gitlab-shell", [cstr "/usr/bin/gitlab-shell", cstr "username-alice"],
          [(cstr "SSH_ORIGINAL_COMMAND", cstr "ls -la")])] ∧
      getenv (main (cstr "/usr/bin/gitlab-shell") (sample_world (cstr "alice") [])
          [cstr "gitlab-pivot", cstr "-c", cstr "ls -la"]).environ (cstr "SSH_ORIGINAL_COMMAND") =
        some (cstr "ls -la") :=
  ⟨rfl,
   (main_forwards_command (cstr "/usr/bin/gitlab-shell") (sample_world (cstr "alice") [])
      (cstr "gitlab-pivot") (cstr "ls -la") (cstr "alice") rfl rfl rfl).1,
   (main_forwards_command (cstr "/usr/bin/gitlab-shell") (sample_world (cstr "alice") [])
      (cstr "gitlab-pivot") (cstr "ls -la") (cstr "alice") rfl rfl rfl).2.1⟩

/-- Claim C2: when `argc` is not 3 or the first operand is not `-c`, `main` writes the usage
message to the error stream and returns 1; it looks nothing up, leaves the environment
alone and does not call `execl`. -/
theorem main_usage_error (sh : CStr) (os : World) (argv : List CStr)
    (h : argv.length ≠ 3 ∨ argv[1]? ≠ some (cstr "-c")) :
    (main sh os argv).trace = [Event.fputs_stderr (cstr "Usage: gitlab-pivot -c COMMAND\n")] ∧
      stderr_of (main sh os argv).trace = cstr "Usage: gitlab-pivot -c COMMAND\n" ∧
      (main sh os argv).outcome = Outcome.returned 1 ∧
      lookups (main sh os argv).trace = [] ∧
      env_mutations (main sh os argv).trace = [] ∧
      (main sh os argv).environ = os.environ ∧
      exec_attempts (main sh os argv).trace = [] := by
  rw [main_bad_shape sh os argv h]
  simp [stderr_of, lookups, env_mutations, exec_attempts, usage_msg]

/-- Witness for C2: a wrong flag. -/
theorem main_usage_error_witness :
    (main (cstr "/usr/bin/gitlab-shell") (sample_world (cstr "alice") [])
        [cstr "gitlab-pivot", cstr "-x", cstr "ls"]).outcome = Outcome.returned 1 ∧
      exec_attempts (main (cstr "/usr/bin/gitlab-shell") (sample_world (cstr "alice") [])
        [cstr "gitlab-pivot", cstr "-x", cstr "ls"]).trace = [] :=
  have h := main_usage_error (cstr "/usr/bin/gitlab-shell") (sample_world (cstr "alice") [])
    [cstr "gitlab-pivot", cstr "-x", cstr "ls"] (Or.inr (by decide))
  ⟨h.2.2.1, h.2.2.2.2.2.2⟩

/-- Claim C3: every call of `execl` that `main` makes names the build-time path
`GITLAB_SHELL`, whatever the arguments, the environment and the password database are; two
invocations that reach `execl` name the same path, and a replaced process runs that path. -/
theorem exec_path_is_constant (sh : CStr) (os1 os2 : World) (argv1 argv2 : List CStr)
    (e1 e2 : CStr × List CStr × Env)
    (h1 : e1 ∈ exec_attempts (main sh os1 argv1).trace)
    (h2 : e2 ∈ exec_attempts (main sh os2 argv2).trace) :
    e1.1 = sh ∧ e2.1 = sh ∧ e1.1 = e2.1 ∧
      ∀ p a v, (main sh os1 argv1).outcome = Outcome.replaced p a v → p = sh := by
  obtain ⟨p1, c1, n1, ha1, hn1, hm1, rfl⟩ := exec_attempts_main sh os1 argv1 e1 h1
  obtain ⟨p2, c2, n2, _, _, _, rfl⟩ := exec_attempts_main sh os2 argv2 e2 h2
  refine ⟨rfl, rfl, rfl, ?_⟩
  intro p a v hout
  rw [ha1, main_exec sh os1 p1 c1 n1 hn1 hm1] at hout
  simp only [execl] at hout
  split at hout
  · injection hout with hp _ _
    exact hp.symm
  · cases hout

/-- Witness for C3: two callers with different environments and commands. -/
theorem exec_path_is_constant_witness :
    sample_exec ∈ exec_attempts (main (cstr "/usr/bin/gitlab-shell")
        (sample_world (cstr "alice") []) [cstr "gitlab-pivot", cstr "-c", cstr "ls"]).trace ∧
      other_exec ∈ exec_attempts (main (cstr "/usr/bin/gitlab-shell") other_world
        [cstr "/bin/bash", cstr "-c", cstr "/bin/bash"]).trace ∧
      sample_exec.1 = other_exec.1 :=
  ⟨by decide, by decide,
   (exec_path_is_constant (cstr "/usr/bin/gitlab-shell") (sample_world (cstr "alice") [])
    other_world [cstr "gitlab-pivot", cstr "-c", cstr "ls"]
    [cstr "/bin/bash", cstr "-c", cstr "/bin/bash"] sample_exec other_exec
    (by decide) (by decide)).2.2.1⟩

/-- Claim C4: the token handed to `execl` depends only on the username of the real user.
Two invocations that reach `execl` and whose real user ids resolve to the same name `n` pass
the same token, `"username-" ++ n`, whatever their command operands, effective user ids,
working directories and environments are. -/
theorem token_depends_on_name_only (sh : CStr) (os1 os2 : World) (argv1 argv2 : List CStr)
    (n : CStr) (e1 e2 : CStr × List CStr × Env)
    (hn1 : resolved os1 = some n) (hn2 : resolved os2 = some n)
    (h1 : e1 ∈ exec_attempts (main sh os1 argv1).trace)
    (h2 : e2 ∈ exec_attempts (main sh os2 argv2).trace) :
    e1.2.1 = e2.2.1 ∧ e1.2.1[1]? = e2.2.1[1]? ∧ e1.2.1[1]? = some (cstr "username-" ++ n) := by
  obtain ⟨p1, c1, n1, _, hr1, _, rfl⟩ := exec_attempts_main sh os1 argv1 e1 h1
  obtain ⟨p2, c2, n2, _, hr2, _, rfl⟩ := exec_attempts_main sh os2 argv2 e2 h2
  rw [hn1] at hr1
  rw [hn2] at hr2
  cases hr1
  cases hr2
  simp [name_arg_eq]

/-- Witness for C4: `alice` under two effective ids, directories, environments and commands. -/
theorem token_depends_on_name_only_witness :
    (sample_world (cstr "alice") []).euid ≠ other_world.euid ∧
      (sample_world (cstr "alice") []).cwd ≠ other_world.cwd ∧
      (sample_world (cstr "alice") []).environ ≠ other_world.environ ∧
      sample_exec.2.1[1]? = other_exec.2.1[1]? ∧
      sample_exec.2.1[1]? = some (cstr "username-alice") :=
  ⟨by decide, by decide, by decide,
   (token_depends_on_name_only (cstr "/usr/bin/gitlab-shell") (sample_world (cstr "alice") [])
    other_world [cstr "gitlab-pivot", cstr "-c", cstr "ls"]
    [cstr "/bin/bash", cstr "-c", cstr "/bin/bash"] (cstr "alice") sample_exec other_exec
    rfl rfl (by decide) (by decide)).2⟩

/-- Claim C5: with arguments `[prog, "-c", cmd]`, when the real user id has no entry in the
password database, or the allocation of the token fails, `main` returns 1, leaves the
environment unchanged and makes no call of `execl`; the error stream receives
`Could not determine the username of the real user` in the first case and `Out of memory`
in the second. -/
theorem main_lookup_or_alloc_failure (sh : CStr) (os : World) (prog cmd : CStr)
    (h : os.passwd os.uid = none ∨
      ∃ n, resolved os = some n ∧ os.malloc_ok (alloc_size os.size_bits n) = false) :
    (main sh os [prog, cstr "-c", cmd]).outcome = Outcome.returned 1 ∧
      (main sh os [prog, cstr "-c", cmd]).environ = os.environ ∧
      env_mutations (main sh os [prog, cstr "-c", cmd]).trace = [] ∧
      exec_attempts (main sh os [prog, cstr "-c", cmd]).trace = [] ∧
      (os.passwd os.uid = none →
        stderr_of (main sh os [prog, cstr "-c", cmd]).trace =
          cstr "Could not determine the username of the real user\n") ∧
      (∀ n, resolved os = some n → os.malloc_ok (alloc_size os.size_bits n) = false →
        stderr_of (main sh os [prog, cstr "-c", cmd]).trace = cstr "Out of memory\n") := by
  rcases h with h | ⟨n, hn, hm⟩
  · have hr : resolved os = none := by simp [resolved, h]
    rw [main_no_user sh os prog cmd hr]
    refine ⟨rfl, rfl, by simp [env_mutations], by simp [exec_attempts], ?_, ?_⟩
    · intro _
      simp [stderr_of, lookup_msg]
    · intro m hm
      rw [hr] at hm
      cases hm
  · rw [main_no_memory sh os prog cmd n hn hm]
    refine ⟨rfl, rfl, by simp [env_mutations], by simp [exec_attempts], ?_, ?_⟩
    · intro hp
      simp [resolved, hp] at hn
    · intro _ _ _
      simp [stderr_of, oom_msg]

/-- Witness for C5: a real user id without an entry. -/
theorem main_lookup_or_alloc_failure_witness :
    no_entry_world.passwd no_entry_world.uid = none ∧
      (main (cstr "/usr/bin/gitlab-shell") no_entry_world
        [cstr "gitlab-pivot", cstr "-c", cstr "ls"]).outcome = Outcome.returned 1 ∧
      stderr_of (main (cstr "/usr/bin/gitlab-shell") no_entry_world
        [cstr "gitlab-pivot", cstr "-c", cstr "ls"]).trace =
          cstr "Could not determine the username of the real user\n" :=
  have h := main_lookup_or_alloc_failure (cstr "/usr/bin/gitlab-shell") no_entry_world
    (cstr "gitlab-pivot") (cstr "ls") (Or.inl rfl)
  ⟨rfl, h.1, h.2.2.2.2.1 rfl⟩

/-- Counterexample to C6: the real user has an entry whose `pw_name` is the empty string.
Nothing is written to the error stream, `main` does not return 1, and `execl` is called with
the token `username-`. -/
theorem empty_username_reaches_exec :
    resolved (sample_world [] []) = some [] ∧
      stderr_of (main (cstr "/usr/bin/gitlab-shell") (sample_world [] [])
        [cstr "gitlab-pivot", cstr "-c", cstr "ls"]).trace = [] ∧
      (main (cstr "/usr/bin/gitlab-shell") (sample_world [] [])
        [cstr "gitlab-pivot", cstr "-c", cstr "ls"]).outcome ≠ Outcome.returned 1 ∧
      exec_attempts (main (cstr "/usr/bin/gitlab-shell") (sample_world [] [])
        [cstr "gitlab-pivot", cstr "-c", cstr "ls"]).trace =
        [(cstr "/usr/bin/gitlab-shell", [cstr "/usr/bin/gitlab-shell", cstr "username-"],
          [(cstr "SSH_ORIGINAL_COMMAND", cstr "ls")])] :=
  ⟨rfl, rfl, by decide, rfl⟩

/-- Claim C6, amended: with arguments `[prog, "-c", cmd]`, an entry whose `pw_name` is NULL
makes `main` write the lookup diagnostic and return 1 without calling `execl`.  An entry
whose `pw_name` is the empty string is not rejected: when the allocation succeeds `main`
writes nothing and calls `execl` with the token `username-`. -/
theorem null_name_is_lookup_failure (sh : CStr) (os : World) (prog cmd : CStr) (pw : Passwd)
    (h : os.passwd os.uid = some pw) :
    (pw.pw_name = none →
      stderr_of (main sh os [prog, cstr "-c", cmd]).trace =
          cstr "Could not determine the username of the real user\n" ∧
        (main sh os [prog, cstr "-c", cmd]).outcome = Outcome.returned 1 ∧
        exec_attempts (main sh os [prog, cstr "-c", cmd]).trace = []) ∧
    (pw.pw_name = some [] → os.malloc_ok (alloc_size os.size_bits []) = true →
      stderr_of (main sh os [prog, cstr "-c", cmd]).trace = [] ∧
        exec_attempts (main sh os [prog, cstr "-c", cmd]).trace =
          [(sh, [sh, cstr "username-"], (setenv os os.environ ssh_original_command cmd 1).2)]) := by
  constructor
  · intro hp
    have hr : resolved os = none := by simp [resolved, h, hp]
    rw [main_no_user sh os prog cmd hr]
    simp [stderr_of, exec_attempts, lookup_msg]
  · intro hp hm
    have hr : resolved os = some [] := by simp [resolved, h, hp]
    rw [main_exec sh os prog cmd [] hr hm, name_arg_eq]
    simp [stderr_of, exec_attempts]

/-- Witness for the amended C6: an entry with a NULL `pw_name`. -/
theorem null_name_is_lookup_failure_witness :
    null_name_world.passwd null_name_world.uid = some { pw_name := none } ∧
      (main (cstr "/usr/bin/gitlab-shell") null_name_world
        [cstr "gitlab-pivot", cstr "-c", cstr "ls"]).outcome = Outcome.returned 1 ∧
      exec_attempts (main (cstr "/usr/bin/gitlab-shell") null_name_world
        [cstr "gitlab-pivot", cstr "-c", cstr "ls"]).trace = [] :=
  have h := (null_name_is_lookup_failure (cstr "/usr/bin/gitlab-shell") null_name_world
    (cstr "gitlab-pivot") (cstr "ls") { pw_name := none } rfl).1 rfl
  ⟨rfl, h.2.1, h.2.2⟩


/-- Claim C7: when `main` reaches `execl` with command operand `cmd`, the environment of the
call should map `SSH_ORIGINAL_COMMAND` to `cmd`, overwriting an old value.  It does not when
`setenv` fails: in `tight_stale_world` the variable holds `rm -rf /` at entry, user `alice`
runs `ls -la`, `setenv` returns -1, and `execl` is called with the initial environment, in
which the variable still holds `rm -rf /`. -/
theorem failed_setenv_keeps_stale_value :
    getenv tight_stale_world.environ (cstr "SSH_ORIGINAL_COMMAND") = some (cstr "rm -rf /") ∧
      ([cstr "gitlab-pivot", cstr "-c", cstr "ls -la"] : List CStr)[2]? =
        some (cstr "ls -la") ∧
      setenv tight_stale_world tight_stale_world.environ (cstr "SSH_ORIGINAL_COMMAND")
          (cstr "ls -la") 1 = (-1, tight_stale_world.environ) ∧
      exec_attempts (main (cstr "/usr/bin/gitlab-shell") tight_stale_world
          [cstr "gitlab-pivot", cstr "-c", cstr "ls -la"]).trace = [tight_stale_exec] ∧
      tight_stale_exec.2.2 = tight_stale_world.environ ∧
      getenv tight_stale_exec.2.2 (cstr "SSH_ORIGINAL_COMMAND") = some (cstr "rm -rf /") ∧
      getenv tight_stale_exec.2.2 (cstr "SSH_ORIGINAL_COMMAND") ≠ some (cstr "ls -la") :=
  ⟨rfl, rfl, rfl, rfl, rfl, rfl, by decide⟩

/-- When `setenv` succeeds it is the only change of the environment: if `main` reaches
`execl` with command operand `cmd`, the environment of the call maps `SSH_ORIGINAL_COMMAND`
to `cmd`, whatever the variable held before, and every other variable to its initial value;
the entries under other names are the initial ones, the single call of `setenv` is that one,
and a replaced process gets this environment. -/
theorem setenv_is_only_mutation (sh : CStr) (os : World) (argv : List CStr) (cmd : CStr)
    (e : CStr × List CStr × Env) (hc : argv[2]? = some cmd)
    (hs : os.setenv_ok ssh_original_command cmd = true)
    (he : e ∈ exec_attempts (main sh os argv).trace) :
    getenv e.2.2 (cstr "SSH_ORIGINAL_COMMAND") = some cmd ∧
      (∀ k, k ≠ cstr "SSH_ORIGINAL_COMMAND" → getenv e.2.2 k = getenv os.environ k) ∧
      e.2.2.filter (fun p => decide (p.1 ≠ cstr "SSH_ORIGINAL_COMMAND")) =
        os.environ.filter (fun p => decide (p.1 ≠ cstr "SSH_ORIGINAL_COMMAND")) ∧
      env_mutations (main sh os argv).trace = [(cstr "SSH_ORIGINAL_COMMAND", cmd, 1)] ∧
      (main sh os argv).environ = e.2.2 ∧
      ∀ p a v, (main sh os argv).outcome = Outcome.replaced p a v → v = e.2.2 := by
  obtain ⟨prog, c, n, ha, hn, hm, rfl⟩ := exec_attempts_main sh os argv e he
  subst ha
  have hcc : c = cmd := by simpa using hc
  subst hcc
  rw [main_exec sh os prog c n hn hm, setenv_command_ok os os.environ c hs]
  refine ⟨getenv_add_same os.environ _ c 1 (by decide),
    fun k hk => getenv_add_other os.environ _ c k 1 hk,
    filter_add os.environ _ c 1, by simp [env_mutations, ssh_original_command], rfl, ?_⟩
  intro p a v hout
  simp only [execl] at hout
  split at hout
  · injection hout with _ _ hv
    exact hv.symm
  · cases hout

/-- An instance of `setenv_is_only_mutation`: the stale value of the variable is replaced,
`PATH` and `HOME` stay. -/
theorem setenv_is_only_mutation_witness :
    getenv stale_world.environ (cstr "SSH_ORIGINAL_COMMAND") = some (cstr "rm -rf /") ∧
      stale_exec ∈ exec_attempts (main (cstr "/usr/bin/gitlab-shell") stale_world
        [cstr "gitlab-pivot", cstr "-c", cstr "ls -la"]).trace ∧
      getenv stale_exec.2.2 (cstr "SSH_ORIGINAL_COMMAND") = some (cstr "ls -la") ∧
      stale_exec.2.2.filter (fun p => decide (p.1 ≠ cstr "SSH_ORIGINAL_COMMAND")) =
        stale_world.environ.filter (fun p => decide (p.1 ≠ cstr "SSH_ORIGINAL_COMMAND")) :=
  have h := setenv_is_only_mutation (cstr "/usr/bin/gitlab-shell") stale_world
    [cstr "gitlab-pivot", cstr "-c", cstr "ls -la"] (cstr "ls -la") stale_exec rfl rfl
    (by decide)
  ⟨by decide, by decide, h.1, h.2.2.1⟩

/-- Claim C8: `main` never ends with exit status 0.  Whenever it returns, the status is
non-zero: it is 1 after one of the three diagnostics, with no call of `execl`, or it is the
result -1 of a failed `execl` (exit status 255), with nothing written to the error stream;
and a failed `execl` always makes `main` return -1. -/
theorem main_never_exits_zero (sh : CStr) (os : World) (argv : List CStr) (s : Int)
    (h : (main sh os argv).outcome = Outcome.returned s) :
    exit_status s ≠ 0 ∧
      ((s = 1 ∧ exec_attempts (main sh os argv).trace = [] ∧
          (stderr_of (main sh os argv).trace = cstr "Usage: gitlab-pivot -c COMMAND\n" ∨
           stderr_of (main sh os argv).trace =
             cstr "Could not determine the username of the real user\n" ∨
           stderr_of (main sh os argv).trace = cstr "Out of memory\n")) ∨
       (s = -1 ∧ exit_status s = 255 ∧ stderr_of (main sh os argv).trace = [] ∧
          os.can_exec sh = false ∧
          ∃ e, exec_attempts (main sh os argv).trace = [e])) ∧
      (∀ e, e ∈ exec_attempts (main sh os argv).trace → os.can_exec sh = false →
        (main sh os argv).outcome = Outcome.returned (-1)) := by
  have hlast : ∀ e, e ∈ exec_attempts (main sh os argv).trace → os.can_exec sh = false →
      (main sh os argv).outcome = Outcome.returned (-1) := by
    intro e he hx
    obtain ⟨prog, c, n, ha, hn, hm, _⟩ := exec_attempts_main sh os argv e he
    rw [ha, main_exec sh os prog c n hn hm]
    simp [execl, hx]
  rcases main_cases sh os argv with ⟨_, hm⟩ | ⟨prog, cmd, ha, hr⟩
  · rw [hm] at h
    injection h with hs
    subst hs
    refine ⟨by decide, Or.inl ⟨rfl, ?_, Or.inl ?_⟩, hlast⟩ <;> rw [hm] <;>
      simp [exec_attempts, stderr_of, usage_msg]
  · rcases hr with ⟨_, hm⟩ | ⟨n, hn, ⟨_, hm⟩ | ⟨hok, hm⟩⟩
    · rw [hm] at h
      injection h with hs
      subst hs
      refine ⟨by decide, Or.inl ⟨rfl, ?_, Or.inr (Or.inl ?_)⟩, hlast⟩ <;> rw [hm] <;>
        simp [exec_attempts, stderr_of, lookup_msg]
    · rw [hm] at h
      injection h with hs
      subst hs
      refine ⟨by decide, Or.inl ⟨rfl, ?_, Or.inr (Or.inr ?_)⟩, hlast⟩ <;> rw [hm] <;>
        simp [exec_attempts, stderr_of, oom_msg]
    · rw [hm] at h
      simp only [execl] at h
      split at h
      · cases h
      · rename_i hx
        injection h with hs
        subst hs
        refine ⟨by decide, Or.inr ⟨rfl, by decide, ?_, by simpa using hx, ?_⟩, hlast⟩ <;>
          rw [hm] <;> simp [exec_attempts, stderr_of]

/-- Witness for C8: `GITLAB_SHELL` cannot be executed, `main` returns -1, seen as 255. -/
theorem main_never_exits_zero_witness :
    (main (cstr "/usr/bin/gitlab-shell") no_shell_world
        [cstr "gitlab-pivot", cstr "-c", cstr "ls"]).outcome = Outcome.returned (-1) ∧
      exit_status (-1) ≠ 0 ∧ exit_status (-1) = 255 :=
  ⟨rfl,
   (main_never_exits_zero (cstr "/usr/bin/gitlab-shell") no_shell_world
      [cstr "gitlab-pivot", cstr "-c", cstr "ls"] (-1) rfl).1,
   by decide⟩

/-- Claim C9: for a username shorter than `2 ^ w - 10`, with `w` the width of `size_t`, the
size `main` asks of `malloc`, `strlen(n) + 10`, is the number of bytes `sprintf` stores for
`"username-%s"`: 9 for the fixed part, `strlen(n)` for the name and 1 for the terminator.  So
every `sprintf` of `main` fills its buffer exactly and its output is the whole token. -/
theorem alloc_size_exact (w : Nat) (n : CStr) (h : strlen n < 2 ^ w - 10) :
    alloc_size w n = strlen n + 10 ∧
      bytes_written (name_arg n) = 9 + strlen n + 1 ∧
      alloc_size w n = bytes_written (name_arg n) ∧
      ∀ sh os argv c, os.size_bits = w → resolved os = some n →
        c ∈ sprintf_calls (main sh os argv).trace →
        c.2 = cstr "username-" ++ n ∧ bytes_written c.2 = c.1 := by
  have h1 : alloc_size w n = strlen n + 10 := by
    unfold alloc_size
    have h2 : strlen n + 10 < 2 ^ w := by omega
    have h3 : strlen n % 2 ^ w = strlen n := Nat.mod_eq_of_lt (by omega)
    rw [h3, Nat.mul_one, Nat.mod_mod, Nat.mod_eq_of_lt h2]
  have h2 : bytes_written (name_arg n) = 9 + strlen n + 1 := by
    have hlen : (cstr "username-").length = 9 := by decide
    rw [name_arg_eq]
    unfold bytes_written strlen
    rw [List.length_append, hlen]
  refine ⟨h1, h2, by omega, ?_⟩
  intro sh os argv c hw hn hc
  rcases main_cases sh os argv with ⟨_, hm⟩ | ⟨prog, cmd, _, hr⟩
  · rw [hm] at hc
    simp [sprintf_calls] at hc
  · rcases hr with ⟨_, hm⟩ | ⟨m, hn2, ⟨_, hm⟩ | ⟨_, hm⟩⟩
    · rw [hm] at hc
      simp [sprintf_calls] at hc
    · rw [hm] at hc
      simp [sprintf_calls] at hc
    · rw [hn] at hn2
      cases hn2
      rw [hm] at hc
      simp only [sprintf_calls, List.mem_singleton] at hc
      subst hc
      subst hw
      exact ⟨name_arg_eq n, by simp only []; omega⟩

/-- Witness for C9: `alice` with a 64-bit `size_t` needs 15 bytes. -/
theorem alloc_size_exact_witness :
    strlen (cstr "alice") < 2 ^ 64 - 10 ∧ alloc_size 64 (cstr "alice") = 15 ∧
      bytes_written (name_arg (cstr "alice")) = 15 :=
  have h := alloc_size_exact 64 (cstr "alice") (by decide)
  ⟨by decide, h.1, h.2.1⟩

/-- Claim C10: the token determines the username.  Equal tokens come from equal usernames,
and dropping the 9 characters `username-` from the token of `n` gives `n` back. -/
theorem name_arg_injective (n1 n2 : CStr) (h : name_arg n1 = name_arg n2) :
    n1 = n2 ∧ (name_arg n1).drop 9 = n1 ∧ (name_arg n1).take 9 = cstr "username-" ∧
      ∀ m1 m2 : CStr, m1 ≠ m2 → name_arg m1 ≠ name_arg m2 := by
  have hlen : (cstr "username-").length = 9 := by decide
  have hinj : ∀ a b : CStr, name_arg a = name_arg b → a = b := by
    intro a b hab
    rw [name_arg_eq, name_arg_eq] at hab
    exact List.append_cancel_left hab
  refine ⟨hinj n1 n2 h, ?_, ?_, fun m1 m2 hne he => hne (hinj m1 m2 he)⟩
  · rw [name_arg_eq, ← hlen, List.drop_left]
  · rw [name_arg_eq, ← hlen, List.take_left]

/-- Witness for C10: the token of `alice`. -/
theorem name_arg_injective_witness :
    name_arg (cstr "alice") = cstr "username-alice" ∧
      (name_arg (cstr "alice")).drop 9 = cstr "alice" :=
  ⟨rfl, (name_arg_injective (cstr "alice") (cstr "alice") rfl).2.1⟩

end GitlabPivot
